import Mathlib

/-!
Verification of the Starframe component graph and 2D physics queries.

The definitions below are shallow embeddings of the Rust sources:
* `src/core/graph.rs` — component graph (layers, edges, neighbor lookup);
* `src/physics/collision/query.rs` — point and ray queries against colliders;
* `src/physics/collision/shape_shape.rs` — narrow-phase intersection checks;
* `examples/testgame/player.rs` — player controller acceleration.

Machine floats are modelled by exact rationals `ℚ`; where IEEE special
values (±∞, NaN) are essential to the property under scrutiny, an explicit
extended-value type `FVal` models them. Rust panics (asserts, out-of-bounds
indexing, `expect`) are modelled by `Option`/`none` results.
-/

/-! ## Component graph (src/core/graph.rs)

`Graph.edge_layers` is a 3D array: outer index = starting layer, middle
index = target layer, inner index = component on the starting layer; the
stored value is the index of the component on the target layer.
A `NodeRef` couples a layer index, an item index and a borrow of the item;
only the two indices are relevant to edge bookkeeping, so a node is
modelled as the pair of indices. -/

/-- One edge vector `edges[from_layer][to_layer]`: position `i` holds the
target item index of the edge starting at item `i`, if any. -/
abbrev EdgeVec := List (Option Nat)

/-- The component graph: the nested `edge_layers` vectors of `Graph`. -/
abbrev CGraph := List (List EdgeVec)

/-- The index pair carried by a `NodeRef<'_, T>` (the borrowed item itself
plays no role in edge bookkeeping). -/
structure GraphNode where
  layer_idx : Nat
  item_idx : Nat
deriving DecidableEq, Repr

/-- Embedding of `Graph::create_layer`: every existing layer gains one new
empty target slot, and the new layer is seeded with one empty target slot
per layer (the existing ones plus itself). Returns the new edge matrix and
the `index` stored in the returned `Layer`. -/
def create_layer (g : CGraph) : CGraph × Nat :=
  (g.map (fun row => row ++ [[]]) ++ [List.replicate (g.length + 1) []], g.length)

/-- The write `connect_oneway` performs on one edge vector: grow-and-push
when the slot does not exist yet, otherwise `replace` guarded by
`assert!(prev_val.is_none())`. A `none` result models the assert firing
(attempted overwrite of an existing edge). -/
def setEdge (ev : EdgeVec) (idx v : Nat) : Option EdgeVec :=
  if ev.length ≤ idx then
    some ((if ev.length ≠ idx then ev ++ List.replicate (idx - ev.length) none else ev)
          ++ [some v])
  else
    match ev[idx]? with
    | some (some _) => none
    | _ => some (ev.set idx (some v))

/-- Embedding of `Graph::connect_oneway`. `none` models a panic: either the
indexing `edge_layers[start.layer_idx][end.layer_idx]` is out of bounds, or
the overwrite assert fires. -/
def connect_oneway (g : CGraph) (s e : GraphNode) : Option CGraph :=
  match g[s.layer_idx]? with
  | none => none
  | some row =>
    match row[e.layer_idx]? with
    | none => none
    | some ev =>
      match setEdge ev s.item_idx e.item_idx with
      | none => none
      | some ev' => some (g.set s.layer_idx (row.set e.layer_idx ev'))

/-- Embedding of `Graph::connect`: `connect_oneway` in both directions. -/
def connect (g : CGraph) (a b : GraphNode) : Option CGraph :=
  (connect_oneway g a b).bind (fun g' => connect_oneway g' b a)

/-- Embedding of `Graph::get_neighbor`. The outer `Option` models the
(possibly panicking) indexing `edge_layers[node.layer_idx][to_layer.index]`;
the inner `Option Nat` is the returned `Option<NodeRef>`, reduced to the
neighbor's `item_idx`. -/
def get_neighbor (g : CGraph) (node : GraphNode) (toLayer : Nat) : Option (Option Nat) :=
  match g[node.layer_idx]? with
  | none => none
  | some row =>
    match row[toLayer]? with
    | none => none
    | some ev =>
      if ev.length ≤ node.item_idx then some none
      else some (ev[node.item_idx]?.join)

/-- The edge recorded in an edge vector for a given starting item, with
absent slots (shorter vector) reading as `none`. -/
def lookupEdge (ev : EdgeVec) (i : Nat) : Option Nat :=
  ev[i]?.join

/-! ## 2D pose math (crate::math)

The math module is not under src/; `Vec2`, rotors and poses are modelled
from the spec (pose = `(translation, rotor)`, a rotor being an even-grade
multivector equivalent to a complex unit). Coordinates are exact rationals
standing for the source's `f64`. -/

/-- A 2D vector with exact rational coordinates. -/
structure Vec2 where
  x : ℚ
  y : ℚ
deriving DecidableEq, Repr

instance : Add Vec2 := ⟨fun a b => ⟨a.x + b.x, a.y + b.y⟩⟩

instance : Sub Vec2 := ⟨fun a b => ⟨a.x - b.x, a.y - b.y⟩⟩

instance : Neg Vec2 := ⟨fun a => ⟨-a.x, -a.y⟩⟩

/-- Scalar multiplication `c * v`. -/
def Vec2.smul (c : ℚ) (v : Vec2) : Vec2 := ⟨c * v.x, c * v.y⟩

/-- Dot product. -/
def Vec2.dot (a b : Vec2) : ℚ := a.x * b.x + a.y * b.y

/-- Squared magnitude (the source's `mag_sq`). -/
def Vec2.magSq (v : Vec2) : ℚ := v.dot v

/-- Modelled from the spec: `m::left_normal`, a perpendicular of the
argument (only its perpendicularity matters to the embedded code). -/
def leftNormal (v : Vec2) : Vec2 := ⟨-v.y, v.x⟩

/-- IEEE `copysign` over signless rationals: magnitude of `a`, sign of `b`.
`ℚ` cannot represent a negative zero; every use below either guards `b`
away from zero or is insensitive to the sign chosen at `b = 0`. -/
def copysign (a b : ℚ) : ℚ := if b < 0 then -|a| else |a|

/-- Modelled from the spec: a rotor represented by its cosine/sine pair. -/
structure Rotor where
  c : ℚ
  s : ℚ
deriving DecidableEq, Repr

/-- Rotate a vector by a rotor. -/
def Rotor.apply (r : Rotor) (v : Vec2) : Vec2 :=
  ⟨r.c * v.x - r.s * v.y, r.s * v.x + r.c * v.y⟩

/-- The reversed (inverse) rotor. -/
def Rotor.reversed (r : Rotor) : Rotor := ⟨r.c, -r.s⟩

/-- Rotor composition. -/
def Rotor.comp (r1 r2 : Rotor) : Rotor :=
  ⟨r1.c * r2.c - r1.s * r2.s, r1.s * r2.c + r1.c * r2.s⟩

/-- Modelled from the spec: a 2D rigid pose `(translation, rotor)`. -/
structure Pose where
  translation : Vec2
  rotation : Rotor
deriving DecidableEq, Repr

/-- Apply a pose to a point: rotate, then translate. -/
def Pose.apply (p : Pose) (v : Vec2) : Vec2 := p.rotation.apply v + p.translation

/-- Pose composition (`p * q` acts as `p` after `q`). -/
def Pose.comp (p q : Pose) : Pose :=
  ⟨p.rotation.apply q.translation + p.translation, p.rotation.comp q.rotation⟩

/-- The inverse pose. -/
def Pose.inversed (p : Pose) : Pose :=
  ⟨p.rotation.reversed.apply (-p.translation), p.rotation.reversed⟩

/-- The identity pose. -/
def Pose.idPose : Pose := ⟨⟨0, 0⟩, ⟨1, 0⟩⟩

/-! ## Collider shapes (src/physics/collision)

The file collider.rs is not under src/ — only its callers are. The polygon
variants' geometric accessors (`edge_count`/`get_edge`,
`is_rotationally_symmetrical`, `half_angle_between_edges_tan`,
`projected_extent`, `separating_axes`, `supporting_edge`,
`closest_boundary_point`) are therefore modelled from the spec as an
explicit accessor table `PolyModel` (the spec describes face normals tagged
with rotational symmetry, projected extents and supporting edges). `Rect`
keeps a dedicated constructor because `point_collider_bool` in src/ has a
dedicated `Rect` arm; its accessor table is instantiated concretely below.
`Triangle` and `Hexagon` are covered by the abstract `poly` constructor. -/

/-- The `Edge` struct of shape_shape.rs: start point, unit direction,
length. -/
structure PolyEdge where
  start : Vec2
  dir : Vec2
  length : ℚ
deriving DecidableEq, Repr

/-- `Edge::mirrored`: mirror with respect to the origin. -/
def PolyEdge.mirrored (e : PolyEdge) : PolyEdge := ⟨-e.start, -e.dir, e.length⟩

/-- `Edge::offset`: translate the start point. -/
def PolyEdge.offset (e : PolyEdge) (amount : Vec2) : PolyEdge :=
  ⟨e.start + amount, e.dir, e.length⟩

/-- `Edge::transformed`. -/
def PolyEdge.transformed (e : PolyEdge) (pose : Pose) : PolyEdge :=
  ⟨pose.apply e.start, pose.rotation.apply e.dir, e.length⟩

/-- An edge with its outward normal: the `SupportingEdge` struct of
shape_shape.rs, also the value returned by `get_edge` in query.rs. -/
structure EdgeWithNormal where
  edge : PolyEdge
  normal : Vec2
deriving DecidableEq, Repr

/-- Modelled from the spec: mirroring an edge mirrors its normal too. -/
def EdgeWithNormal.mirrored (e : EdgeWithNormal) : EdgeWithNormal :=
  ⟨e.edge.mirrored, -e.normal⟩

/-- `SupportingEdge::transformed`. -/
def EdgeWithNormal.transformed (e : EdgeWithNormal) (pose : Pose) : EdgeWithNormal :=
  ⟨e.edge.transformed pose, pose.rotation.apply e.normal⟩

/-- The `SeparatingAxis` struct of shape_shape.rs. -/
structure SeparatingAxis where
  axis : Vec2
  extent : ℚ
  edge : PolyEdge
  symmetrical : Bool
deriving DecidableEq, Repr

/-- `SeparatingAxis::mirrored` (the source asserts `symmetrical`; every call
site is guarded by that flag, so the assert cannot fire and is omitted). -/
def SeparatingAxis.mirrored (a : SeparatingAxis) : SeparatingAxis :=
  ⟨-a.axis, a.extent, a.edge.mirrored, a.symmetrical⟩

/-- The `ClosestBoundaryPoint` struct of shape_shape.rs. -/
structure ClosestBoundaryPoint where
  pt : Vec2
  is_interior : Bool
deriving DecidableEq, Repr

/-- Modelled from the spec: the geometric accessor table of one polygon
variant (the methods of `ColliderPolygon` that live in collider.rs). -/
structure PolyModel where
  edges : List EdgeWithNormal
  symmetric : Bool
  projExt : Vec2 → ℚ
  halfAngleTan : ℚ
  sepAxes : List SeparatingAxis
  suppEdge : Vec2 → Option EdgeWithNormal
  closestBoundaryPoint : Vec2 → ClosestBoundaryPoint

/-- Modelled from the spec: accessor table of `Rect { hw, hh }` — two
rotationally symmetric faces (+x face with extent `hw`, +y face with extent
`hh`), projected extent `|axis.x|·hw + |axis.y|·hh`, 45° corner half-angle.
No theorem below depends on the supporting-edge choice. -/
def rectModel (hw hh : ℚ) : PolyModel where
  edges := [⟨⟨⟨hw, -hh⟩, ⟨0, 1⟩, 2 * hh⟩, ⟨1, 0⟩⟩,
            ⟨⟨⟨hw, hh⟩, ⟨-1, 0⟩, 2 * hw⟩, ⟨0, 1⟩⟩]
  symmetric := true
  projExt := fun axis => |axis.x| * hw + |axis.y| * hh
  halfAngleTan := 1
  sepAxes := [⟨⟨1, 0⟩, hw, ⟨⟨hw, -hh⟩, ⟨0, 1⟩, 2 * hh⟩, true⟩,
              ⟨⟨0, 1⟩, hh, ⟨⟨hw, hh⟩, ⟨-1, 0⟩, 2 * hw⟩, true⟩]
  suppEdge := fun dir =>
    if |dir.x| ≥ |dir.y| then
      some (if dir.x ≥ 0 then ⟨⟨⟨hw, -hh⟩, ⟨0, 1⟩, 2 * hh⟩, ⟨1, 0⟩⟩
            else ⟨⟨⟨-hw, hh⟩, ⟨0, -1⟩, 2 * hh⟩, ⟨-1, 0⟩⟩)
    else
      some (if dir.y ≥ 0 then ⟨⟨⟨hw, hh⟩, ⟨-1, 0⟩, 2 * hw⟩, ⟨0, 1⟩⟩
            else ⟨⟨⟨-hw, -hh⟩, ⟨1, 0⟩, 2 * hw⟩, ⟨0, -1⟩⟩)
  closestBoundaryPoint := fun p =>
    if |p.x| ≤ hw ∧ |p.y| ≤ hh then
      if hw - |p.x| ≤ hh - |p.y| then ⟨⟨if p.x < 0 then -hw else hw, p.y⟩, true⟩
      else ⟨⟨p.x, if p.y < 0 then -hh else hh⟩, true⟩
    else ⟨⟨min (max p.x (-hw)) hw, min (max p.y (-hh)) hh⟩, false⟩

/-- Modelled from the spec: accessor table of `LineSegment { hl }` — the
single symmetric +y axis with extent 0 and the segment itself as edge. -/
def lineSegModel (hl : ℚ) : PolyModel where
  edges := [⟨⟨⟨hl, 0⟩, ⟨-1, 0⟩, 2 * hl⟩, ⟨0, 1⟩⟩]
  symmetric := true
  projExt := fun axis => |axis.x| * hl
  halfAngleTan := 1
  sepAxes := [⟨⟨0, 1⟩, 0, ⟨⟨hl, 0⟩, ⟨-1, 0⟩, 2 * hl⟩, true⟩]
  suppEdge := fun dir =>
    some (if dir.y ≥ 0 then ⟨⟨⟨hl, 0⟩, ⟨-1, 0⟩, 2 * hl⟩, ⟨0, 1⟩⟩
          else ⟨⟨⟨-hl, 0⟩, ⟨1, 0⟩, 2 * hl⟩, ⟨0, -1⟩⟩)
  closestBoundaryPoint := fun p => ⟨⟨min (max p.x (-hl)) hl, 0⟩, false⟩

/-- Modelled from the spec: accessor table of `Point` — no axes, no
supporting edge (`any_any` panics on it through `expect`). -/
def pointModel : PolyModel where
  edges := []
  symmetric := true
  projExt := fun _ => 0
  halfAngleTan := 1
  sepAxes := []
  suppEdge := fun _ => none
  closestBoundaryPoint := fun _ => ⟨⟨0, 0⟩, false⟩

/-- The `ColliderPolygon` variants. `poly` stands for the remaining closed
set of variants (`Triangle`, `Hexagon`) through their accessor tables. -/
inductive ColliderPolygon where
  | point
  | lineSegment (hl : ℚ)
  | rect (hw hh : ℚ)
  | poly (pm : PolyModel)

/-- The accessor table of a variant (method dispatch of collider.rs). -/
def ColliderPolygon.model : ColliderPolygon → PolyModel
  | .point => pointModel
  | .lineSegment hl => lineSegModel hl
  | .rect hw hh => rectModel hw hh
  | .poly pm => pm

/-- The `ColliderShape` struct: polygon plus inflating circle radius. -/
structure ColliderShape where
  polygon : ColliderPolygon
  circle_r : ℚ

/-- The collider fields used by the embedded queries (material, layer mask
and kind play no role in them and are omitted). -/
structure Collider where
  shape : ColliderShape

/-! ## Point and ray queries (src/physics/collision/query.rs) -/

/-- The `Ray` struct: start point and (unit) direction. -/
structure Ray where
  start : Vec2
  dir : Vec2
deriving DecidableEq, Repr

/-- The `Mul<Ray> for Pose` impl of query.rs. -/
def Pose.mulRay (p : Pose) (r : Ray) : Ray := ⟨p.apply r.start, p.rotation.apply r.dir⟩

/-- Embedding of `point_collider_bool`. The `Triangle`/`Hexagon` arm calls
`closest_boundary_point` through the accessor table. -/
def point_collider_bool (point : Vec2) (pose : Pose) (coll : Collider) : Bool :=
  let r := coll.shape.circle_r
  let p := pose.inversed.apply point
  match coll.shape.polygon with
  | .point => decide (p.magSq < r * r)
  | .lineSegment hl =>
    let x_dist := max (|p.x| - hl) 0
    let y_dist := |p.y|
    decide (x_dist * x_dist + y_dist * y_dist < r * r)
  | .rect hw hh =>
    let x_dist := |p.x| - hw
    let y_dist := |p.y| - hh
    decide ((x_dist ≤ 0 ∧ y_dist ≤ 0) ∨ x_dist * x_dist + y_dist * y_dist < r * r)
  | .poly pm =>
    let closest := pm.closestBoundaryPoint p
    closest.is_interior || decide ((closest.pt - p).magSq < r * r)

/-- Embedding of `ray_circle`, reduced to hit/miss. The source computes
`t = -b - sqrt(b*b - c)` and reports a hit iff `t ≥ 0`; over exact
arithmetic, under the guard `b*b - c ≥ 0`, that is equivalent to
`b ≤ 0 ∧ c ≥ 0`, which avoids the irrational square root. No claim
inspects the value of `t`, only hit versus miss. -/
def ray_circle_hits (ray : Ray) (circ_pos : Vec2) (r : ℚ) : Bool :=
  let m := ray.start - circ_pos
  let b := m.dot ray.dir
  let c := m.magSq - r * r
  if b > 0 ∧ c > 0 then false
  else if b * b - c < 0 then false
  else decide (b ≤ 0 ∧ 0 ≤ c)

/-- The mutable loop state of the edge loop in the generic arm of
`ray_collider`: `closest_hit_t` (the `f64::MAX` sentinel becomes `none`)
and `vertex_for_circle_check`. -/
structure RayHitState where
  closestHit : Option ℚ
  vertexForCircleCheck : Option Vec2
deriving DecidableEq, Repr

/-- The part of one edge-loop iteration of `ray_collider` that runs after
the edge has been selected (and possibly mirrored): edge-behind test,
parallel test, flat-segment clip, closest-hit bookkeeping. -/
def rayEdgeBody (r extra : ℚ) (ray : Ray) (st : RayHitState)
    (e : EdgeWithNormal) : RayHitState :=
  let outer_edge := e.edge.offset (Vec2.smul r e.normal)
  let edge_dist := outer_edge.start - ray.start
  let ray_speed := ray.dir.dot (-e.normal)
  if ray_speed = 0 then st
  else
    let rayT := edge_dist.dot (-e.normal) / ray_speed
    if rayT < 0 then st
    else
      let speed_along := ray.dir.dot e.edge.dir
      let edgeT := rayT * speed_along - edge_dist.dot e.edge.dir
      if edgeT < -extra ∨ edgeT > e.edge.length + extra then st
      else if (match st.closestHit with
               | some c => decide (c ≤ rayT)
               | none => false) then st
      else
        { closestHit := some rayT,
          vertexForCircleCheck :=
            if edgeT < 0 then some e.edge.start
            else if edgeT > e.edge.length then
              some (e.edge.start + Vec2.smul e.edge.length e.edge.dir)
            else none }

/-- One iteration of the edge loop in the generic arm of `ray_collider`:
only edges that point towards the ray start direction are considered,
mirrored for rotationally symmetric polygons, skipped otherwise. -/
def rayEdgeStep (pm : PolyModel) (r extra : ℚ) (ray : Ray) (st : RayHitState)
    (e0 : EdgeWithNormal) : RayHitState :=
  if e0.normal.dot ray.dir ≤ 0 then rayEdgeBody r extra ray st e0
  else if pm.symmetric then rayEdgeBody r extra ray st e0.mirrored
  else st

/-- Embedding of the generic-polygon arm of `ray_collider` (ray already in
object-local space), reduced to hit/miss. -/
def ray_collider_generic (pm : PolyModel) (r : ℚ) (ray : Ray) : Bool :=
  let perp := leftNormal ray.dir
  let d := ray.start.dot perp
  let ray_dir_perp := if d ≥ 0 then perp else -perp
  let ray_dist := if d ≥ 0 then d else -d
  if pm.projExt ray_dir_perp + r ≤ ray_dist then false
  else
    let extra := if r = 0 then 0 else r / pm.halfAngleTan
    let st := pm.edges.foldl (rayEdgeStep pm r extra ray) ⟨none, none⟩
    match st.closestHit with
    | none => false
    | some _ =>
      match st.vertexForCircleCheck with
      | some vert => ray_circle_hits ray vert r
      | none => true

/-- Embedding of `ray_collider`, reduced to hit/miss. -/
def ray_collider_hits (ray : Ray) (pose : Pose) (coll : Collider) : Bool :=
  let r := coll.shape.circle_r
  match coll.shape.polygon with
  | .point => ray_circle_hits ray pose.translation r
  | .lineSegment hl =>
    let lray := pose.inversed.mulRay ray
    if |lray.dir.y| < 1 / 10000 then
      if |lray.start.y| ≥ r ∨ |lray.start.x| < hl then false
      else ray_circle_hits lray ⟨copysign hl lray.start.x, 0⟩ coll.shape.circle_r
    else
      let facing_edge_y := copysign coll.shape.circle_r (-lray.dir.y)
      let t_to_facing_edge := (facing_edge_y - lray.start.y) / lray.dir.y
      if t_to_facing_edge < 0 then false
      else
        let x_at_edge_hit := lray.start.x + t_to_facing_edge * lray.dir.x
        if |x_at_edge_hit| ≤ hl then true
        else ray_circle_hits lray ⟨copysign hl x_at_edge_hit, 0⟩ coll.shape.circle_r
  | .rect hw hh => ray_collider_generic (rectModel hw hh) r (pose.inversed.mulRay ray)
  | .poly pm => ray_collider_generic pm r (pose.inversed.mulRay ray)

/-- Membership of a point in every face's open inflated half-plane of a
polygon. For a convex polygon (the intersection of its face half-planes)
every point strictly inside the Minkowski sum of the polygon and the open
disc of radius `r` satisfies this, so a theorem assuming it covers every
strictly interior point. -/
def insideFacePlanes (pm : PolyModel) (r : ℚ) (p : Vec2) : Prop :=
  ∀ e ∈ pm.edges,
    e.normal.dot p < e.normal.dot e.edge.start + r ∧
    (pm.symmetric = true → (-e.normal).dot p < (-e.normal).dot (-e.edge.start) + r)

/-- The C4 hypothesis: the ray starts strictly inside the inflated shape,
expressed in the frame each source branch works in (world frame for
`point`, local frame otherwise; exact strict interiority for `point` and
`lineSegment`, face-plane interiority for the polygon arms). -/
def startsInside (ray : Ray) (pose : Pose) (coll : Collider) : Prop :=
  let r := coll.shape.circle_r
  match coll.shape.polygon with
  | .point => (ray.start - pose.translation).magSq < r * r
  | .lineSegment hl =>
    let p := (pose.inversed.mulRay ray).start
    (max (|p.x| - hl) 0) * (max (|p.x| - hl) 0) + p.y * p.y < r * r
  | .rect hw hh => insideFacePlanes (rectModel hw hh) r (pose.inversed.mulRay ray).start
  | .poly pm => insideFacePlanes pm r (pose.inversed.mulRay ray).start

/-- Unit-normal well-formedness of an accessor table (the source stores
normals as `Unit<Vec2>`). -/
def PolyModel.wf (pm : PolyModel) : Prop := ∀ e ∈ pm.edges, e.normal.magSq = 1

/-- Well-formedness of a collider: non-negative inflation radius,
non-negative half-length, unit face normals (all guaranteed by the source's
constructors and `Unit` type). -/
def Collider.wf (coll : Collider) : Prop :=
  0 ≤ coll.shape.circle_r ∧
  match coll.shape.polygon with
  | .lineSegment hl => 0 ≤ hl
  | .poly pm => pm.wf
  | _ => True

/-! ## Narrow phase (src/physics/collision/shape_shape.rs)

The contact `normal` is a `Unit<Vec2>` in the source, produced by
`Unit::new_normalize` (a division by an in-general irrational square
root). The embedding stores the unnormalized direction vector instead; it
is positively parallel to the source's normal, and no claim below inspects
a normal's magnitude or the offsets computed from it — the claims examined
here are about which `ContactResult` constructor is produced. -/

/-- The `Contact` struct: normal direction and the two body-local offsets. -/
structure Contact where
  normal : Vec2
  offsets : Vec2 × Vec2

/-- The `ContactResult` enum: 0–2 contact points. -/
inductive ContactResult where
  | zero
  | one (c : Contact)
  | two (c1 c2 : Contact)

/-- `ContactResult::map`. -/
def ContactResult.map (f : Contact → Contact) : ContactResult → ContactResult
  | .zero => .zero
  | .one c => .one (f c)
  | .two c1 c2 => .two (f c1) (f c2)

/-- `ContactResult::is_zero`. -/
def ContactResult.is_zero : ContactResult → Bool
  | .zero => true
  | _ => false

/-- `flip_contacts`: negate normals and swap offsets. -/
def flip_contacts (contacts : ContactResult) : ContactResult :=
  contacts.map fun c => ⟨-c.normal, (c.offsets.2, c.offsets.1)⟩

/-- Embedding of `circle_circle`. The source's `dist_sq < 0.001`
coincident-centre fallback and the `dist_sq < r_sum²` collision test are
kept exactly; `Unit::new_normalize(dist)` keeps the unnormalized `dist`. -/
def circle_circle (pose1 : Pose) (r1 : ℚ) (pose2 : Pose) (r2 : ℚ) : ContactResult :=
  let pos1 := pose1.translation
  let pos2 := pose2.translation
  let dist := pos2 - pos1
  let dist_sq := dist.magSq
  let r_sum := r1 + r2
  if dist_sq < 1 / 1000 then
    let normal : Vec2 := ⟨1, 0⟩
    ContactResult.one ⟨normal,
      (pose1.rotation.reversed.apply (Vec2.smul r1 normal),
       pose2.rotation.reversed.apply (Vec2.smul (-r2) normal))⟩
  else if dist_sq < r_sum * r_sum then
    let normal := dist
    ContactResult.one ⟨normal,
      (pose1.rotation.reversed.apply (Vec2.smul r1 normal),
       pose2.rotation.reversed.apply (Vec2.smul (-r2) normal))⟩
  else ContactResult.zero

/-- Embedding of `circle_any` (`closest_boundary_point` dispatches through
the accessor table). -/
def circle_any (pose_circ : Pose) (r_circ : ℚ) (pose_other : Pose)
    (shape_other : ColliderShape) (r_other : ℚ) : ContactResult :=
  let pose_circ_local := pose_other.inversed.comp pose_circ
  let dist := pose_circ_local.translation
  let closest_pt := shape_other.polygon.model.closestBoundaryPoint dist
  let dist_from_closest := dist - closest_pt.pt
  if closest_pt.is_interior then
    let dir_from_closest := dist_from_closest
    ContactResult.one ⟨pose_other.rotation.apply dir_from_closest,
      (pose_circ_local.rotation.reversed.apply (Vec2.smul r_circ dir_from_closest),
       closest_pt.pt - Vec2.smul r_other dir_from_closest)⟩
  else
    let r_sum := r_circ + r_other
    let dist_sq := dist_from_closest.magSq
    if dist_sq ≥ r_sum * r_sum then ContactResult.zero
    else
      let dir_from_closest := dist_from_closest
      ContactResult.one ⟨pose_other.rotation.apply (-dir_from_closest),
        (pose_circ_local.rotation.reversed.apply (Vec2.smul r_circ (-dir_from_closest)),
         closest_pt.pt + Vec2.smul r_other dir_from_closest)⟩

/-- The `EdgeClipResult` enum over exact rationals. -/
inductive EdgeClipResult where
  | intersects
  | passes (enters exits : ℚ)
  | misses
deriving DecidableEq, Repr

/-- Embedding of `clip_edge` over exact rationals, as used by `any_any`.
Lean's total rational division returns 0 on a zero denominator, which
diverges from IEEE there; the float-faithful model of this same function —
the one the NaN claim is about — is `clip_edge_fp` below. -/
def clip_edge (target edge : PolyEdge) : EdgeClipResult :=
  let start_dist := target.start - edge.start
  let denom := edge.dir.x * (-target.dir.y) - (-target.dir.x) * edge.dir.y
  let t0 := (start_dist.x * (-target.dir.y) - (-target.dir.x) * start_dist.y) / denom
  let t1 := (edge.dir.x * start_dist.y - start_dist.x * edge.dir.y) / denom
  if t0 ≥ 0 ∧ t0 ≤ edge.length ∧ t1 ≥ 0 ∧ t1 ≤ target.length then .intersects
  else
    let dist_dot_dir2 := start_dist.dot target.dir
    let dirs_dot := edge.dir.dot target.dir
    let start_clip_t := dist_dot_dir2 / dirs_dot
    let end_clip_t := (target.length + dist_dot_dir2) / dirs_dot
    if (start_clip_t ≤ 0 ∧ end_clip_t ≤ 0) ∨
       (start_clip_t ≥ edge.length ∧ end_clip_t ≥ edge.length) then .misses
    else if start_clip_t < end_clip_t then
      .passes (max start_clip_t 0) (min end_clip_t edge.length)
    else
      .passes (max end_clip_t 0) (min start_clip_t edge.length)

/-- The state of `any_any`'s separating-axis loop: the minimum-depth axis
found so far with its owner order (`none` models the initial `f64::MAX`
depth). The outer `Option` of the result distinguishes the early
`return Zero` on a separating axis (`none`). -/
def satLoop (relPoses : Fin 2 → Pose) (shapes : Fin 2 → ColliderShape) :
    List (SeparatingAxis × (Fin 2 × Fin 2)) →
    Option (ℚ × SeparatingAxis × (Fin 2 × Fin 2)) →
    Option (Option (ℚ × SeparatingAxis × (Fin 2 × Fin 2)))
  | [], st => some st
  | (axis0, ord) :: rest, st =>
    let dist := (relPoses ord.2).translation
    let axis? :=
      if axis0.axis.dot dist ≥ 0 then some axis0
      else if axis0.symmetrical then some axis0.mirrored
      else none
    match axis? with
    | none => satLoop relPoses shapes rest st
    | some axis =>
      let axis_wrt_other := -((relPoses ord.1).rotation.apply axis.axis)
      let depth := axis.extent + (shapes 0).circle_r
        + (shapes ord.2).polygon.model.projExt axis_wrt_other
        + (shapes 1).circle_r - dist.dot axis.axis
      if depth ≤ 0 then none
      else
        let better :=
          match st with
          | none => true
          | some (d, _) => decide (depth < d)
        satLoop relPoses shapes rest (if better then some (depth, axis, ord) else st)

/-- The single-point tail of `any_any` (reached when clipping finds no
two-point contact): closest-feature circle-versus-circle test. -/
def any_any_fallback (poses relPoses : Fin 2 → Pose) (shapes : Fin 2 → ColliderShape)
    (ord : Fin 2 × Fin 2) (pen_axis : SeparatingAxis)
    (incident_edge_inner : EdgeWithNormal) (orient : ContactResult → ContactResult) :
    ContactResult :=
  let closest_point_on_other := incident_edge_inner.edge.start
  if closest_point_on_other.dot pen_axis.axis ≤ pen_axis.extent then
    let supporting_point := closest_point_on_other
      - Vec2.smul (shapes ord.2).circle_r pen_axis.axis
    let supp_point_depth := pen_axis.extent - pen_axis.axis.dot supporting_point
    let normal_worldspace := (poses ord.1).rotation.apply pen_axis.axis
    orient (ContactResult.one ⟨normal_worldspace,
      (supporting_point + Vec2.smul supp_point_depth pen_axis.axis,
       (relPoses ord.1).apply supporting_point)⟩)
  else
    let edge_start_to_closest := closest_point_on_other - pen_axis.edge.start
    let t_to_closest_projected := edge_start_to_closest.dot pen_axis.edge.dir
    let closest_on_pen_edge := pen_axis.edge.start
      + Vec2.smul (min (max t_to_closest_projected 0) pen_axis.edge.length) pen_axis.edge.dir
    let dist_btw_closest_points := closest_point_on_other - closest_on_pen_edge
    let dist_sq := dist_btw_closest_points.magSq
    if dist_sq ≥ ((shapes 0).circle_r + (shapes 1).circle_r) ^ 2 then ContactResult.zero
    else
      let axis := dist_btw_closest_points
      let axis_worldspace := (poses ord.1).rotation.apply axis
      orient (ContactResult.one ⟨axis_worldspace,
        (closest_on_pen_edge + Vec2.smul (shapes ord.1).circle_r axis,
         (relPoses ord.1).apply
           (closest_point_on_other - Vec2.smul (shapes ord.2).circle_r axis))⟩)

/-- Embedding of `any_any`. `none` models the source's two `expect` panics
(generic test applied to a circle, which `intersection_check` routes to the
special cases instead). -/
def any_any (poses : Fin 2 → Pose) (shapes : Fin 2 → ColliderShape) :
    Option ContactResult :=
  let po2_wrt_po1 := (poses 0).inversed.comp (poses 1)
  let relPoses : Fin 2 → Pose := ![po2_wrt_po1.inversed, po2_wrt_po1]
  let axes : List (SeparatingAxis × (Fin 2 × Fin 2)) :=
    ((shapes 0).polygon.model.sepAxes.map (fun a => (a, ((0 : Fin 2), (1 : Fin 2)))))
    ++ ((shapes 1).polygon.model.sepAxes.map (fun a => (a, ((1 : Fin 2), (0 : Fin 2)))))
  match satLoop relPoses shapes axes none with
  | none => some ContactResult.zero
  | some none => none
  | some (some (_, pen_axis, ord)) =>
    let orient := if ord.1 = 0 then (fun r : ContactResult => r) else flip_contacts
    let owning_edge :=
      if (shapes ord.1).circle_r = 0 then pen_axis.edge
      else pen_axis.edge.offset (Vec2.smul (shapes ord.1).circle_r pen_axis.axis)
    let pen_axis_wrt_snd := -((relPoses ord.1).rotation.apply pen_axis.axis)
    match (shapes ord.2).polygon.model.suppEdge pen_axis_wrt_snd with
    | none => none
    | some incident_edge_inner_local =>
      let both_simple :=
        (shapes ord.1).circle_r = 0 ∧ (shapes ord.2).circle_r = 0
      let incident_edge_inner := incident_edge_inner_local.transformed (relPoses ord.2)
      let incident_edge_outer :=
        if (shapes ord.2).circle_r = 0 then incident_edge_inner.edge
        else incident_edge_inner.edge.offset
          (Vec2.smul (shapes ord.2).circle_r incident_edge_inner.normal)
      match clip_edge owning_edge incident_edge_outer with
      | .passes enters exits =>
        let start_depth := pen_axis.extent + (shapes ord.1).circle_r
          - incident_edge_outer.start.dot pen_axis.axis
        let dir_dot_axis := incident_edge_outer.dir.dot pen_axis.axis
        let enter_depth := start_depth - enters * dir_dot_axis
        let exit_depth := start_depth - exits * dir_dot_axis
        if enter_depth > 0 ∧ exit_depth > 0 then
          let enter_point := incident_edge_outer.start
            + Vec2.smul enters incident_edge_outer.dir
          let exit_point := incident_edge_outer.start
            + Vec2.smul exits incident_edge_outer.dir
          let normal_worldspace := (poses ord.1).rotation.apply pen_axis.axis
          some (orient (ContactResult.two
            ⟨normal_worldspace,
             (enter_point + Vec2.smul enter_depth pen_axis.axis,
              (relPoses ord.1).apply enter_point)⟩
            ⟨normal_worldspace,
             (exit_point + Vec2.smul exit_depth pen_axis.axis,
              (relPoses ord.1).apply exit_point)⟩))
        else if both_simple then some ContactResult.zero
        else some (any_any_fallback poses relPoses shapes ord pen_axis
          incident_edge_inner orient)
      | .misses =>
        if both_simple then some ContactResult.zero
        else some (any_any_fallback poses relPoses shapes ord pen_axis
          incident_edge_inner orient)
      | .intersects =>
        some (any_any_fallback poses relPoses shapes ord pen_axis
          incident_edge_inner orient)

/-- Embedding of `intersection_check`. -/
def intersection_check (poses : Fin 2 → Pose) (shapes : Fin 2 → ColliderShape) :
    Option ContactResult :=
  let r0 := (shapes 0).circle_r
  let r1 := (shapes 1).circle_r
  match (shapes 0).polygon, (shapes 1).polygon with
  | .point, .point => some (circle_circle (poses 0) r0 (poses 1) r1)
  | .point, _ => some (circle_any (poses 0) r0 (poses 1) (shapes 1) r1)
  | _, .point => some (flip_contacts (circle_any (poses 1) r1 (poses 0) (shapes 0) r0))
  | _, _ => any_any poses shapes

/-! ## IEEE special values for the edge-clip NaN claim -/

/-- An IEEE `f64` value as relevant to the NaN claim: an exact finite
rational, a signed infinity, or NaN. Finite-by-finite arithmetic is exact
(ideal, unrounded); the claim concerns the special values, which the
division by a zero denominator produces exactly. -/
inductive FVal where
  | fin (q : ℚ)
  | pinf
  | ninf
  | nan
deriving DecidableEq, Repr

/-- Finiteness of a modelled float. -/
def FVal.isFin : FVal → Bool
  | .fin _ => true
  | _ => false

/-- IEEE division of finite operands: exact quotient, signed infinity for
`x/0` with `x ≠ 0`, NaN for `0/0` (`ℚ` has no negative zero to divide by). -/
def fdiv (a b : ℚ) : FVal :=
  if b ≠ 0 then .fin (a / b)
  else if a = 0 then .nan
  else if a > 0 then .pinf
  else .ninf

/-- IEEE `≤`: false whenever NaN is involved. -/
def FVal.fle : FVal → FVal → Bool
  | .nan, _ => false
  | _, .nan => false
  | .ninf, _ => true
  | _, .ninf => false
  | .fin a, .fin b => decide (a ≤ b)
  | .fin _, .pinf => true
  | .pinf, .fin _ => false
  | .pinf, .pinf => true

/-- IEEE `<`: false whenever NaN is involved. -/
def FVal.flt : FVal → FVal → Bool
  | .nan, _ => false
  | _, .nan => false
  | .ninf, .ninf => false
  | .ninf, _ => true
  | _, .ninf => false
  | .fin a, .fin b => decide (a < b)
  | .fin _, .pinf => true
  | .pinf, _ => false

/-- Rust `f64::max` (returns the other operand when one is NaN). -/
def FVal.fmax (a b : FVal) : FVal :=
  match a, b with
  | .nan, _ => b
  | _, .nan => a
  | _, _ => if FVal.fle a b then b else a

/-- Rust `f64::min` (returns the other operand when one is NaN). -/
def FVal.fmin (a b : FVal) : FVal :=
  match a, b with
  | .nan, _ => b
  | _, .nan => a
  | _, _ => if FVal.fle a b then a else b

/-- The `EdgeClipResult` enum with float-modelled `Passes` payloads. -/
inductive EdgeClipResultF where
  | intersects
  | passes (enters exits : FVal)
  | misses
deriving DecidableEq, Repr

/-- Float-faithful embedding of `clip_edge`: the divisions go through IEEE
division so a zero denominator produces the ±∞/NaN values the source's
comment describes; all other quantities are finite and exact. -/
def clip_edge_fp (target edge : PolyEdge) : EdgeClipResultF :=
  let start_dist := target.start - edge.start
  let denom := edge.dir.x * (-target.dir.y) - (-target.dir.x) * edge.dir.y
  let t0 := fdiv (start_dist.x * (-target.dir.y) - (-target.dir.x) * start_dist.y) denom
  let t1 := fdiv (edge.dir.x * start_dist.y - start_dist.x * edge.dir.y) denom
  if FVal.fle (.fin 0) t0 && FVal.fle t0 (.fin edge.length)
      && FVal.fle (.fin 0) t1 && FVal.fle t1 (.fin target.length) then
    .intersects
  else
    let dist_dot_dir2 := start_dist.dot target.dir
    let dirs_dot := edge.dir.dot target.dir
    let start_clip_t := fdiv dist_dot_dir2 dirs_dot
    let end_clip_t := fdiv (target.length + dist_dot_dir2) dirs_dot
    if (FVal.fle start_clip_t (.fin 0) && FVal.fle end_clip_t (.fin 0))
        || (FVal.fle (.fin edge.length) start_clip_t
            && FVal.fle (.fin edge.length) end_clip_t) then
      .misses
    else if FVal.flt start_clip_t end_clip_t then
      .passes (FVal.fmax start_clip_t (.fin 0)) (FVal.fmin end_clip_t (.fin edge.length))
    else
      .passes (FVal.fmax end_clip_t (.fin 0)) (FVal.fmin start_clip_t (.fin edge.length))

/-- The C7 success condition on a clip result: not `Intersects`, and any
`Passes` payload is finite (no NaN or infinity escapes). -/
def clipResultOk : EdgeClipResultF → Bool
  | .intersects => false
  | .misses => true
  | .passes en ex => en.isFin && ex.isFin

/-! ## Player controller (examples/testgame/player.rs) -/

/-- Embedding of the horizontal-velocity update in
`PlayerController::tick`: `accel_needed = target_hvel − vx`,
`accel = accel_needed.min(max_acceleration)`, `vx += accel`. -/
def player_tick_hvel (vx target_hvel max_acceleration : ℚ) : ℚ :=
  let accel_needed := target_hvel - vx
  let accel := min accel_needed max_acceleration
  vx + accel

/-- Modelled from the spec: the symmetric-clamp variant the spec recommends
instead, `accel = clamp(need, −max, +max)`; used only to exhibit that the
source applies a plain `min`. -/
def player_tick_hvel_clamped (vx target_hvel max_acceleration : ℚ) : ℚ :=
  let accel_needed := target_hvel - vx
  let accel := max (-max_acceleration) (min accel_needed max_acceleration)
  vx + accel

/-- The spec-side membership test for an inflated rectangle, following the
C6 claim's words: the point is interior to the polygon, or its distance to
the polygon boundary is less than `circle_r` (compared squared; for a
non-interior point of a rect that distance is
`sqrt(max(|x|−hw,0)² + max(|y|−hh,0)²)`). Used only to exhibit the C6
divergence against `point_collider_bool`. -/
def point_in_inflated_rect_spec (hw hh r : ℚ) (p : Vec2) : Bool :=
  let xd := max (|p.x| - hw) 0
  let yd := max (|p.y| - hh) 0
  decide ((|p.x| < hw ∧ |p.y| < hh) ∨ xd * xd + yd * yd < r * r)

/-! ## Theorems: component graph -/

/-- Reading a slot past the end of an edge vector yields no edge. -/
theorem lookupEdge_of_le {ev : EdgeVec} {i : Nat} (h : ev.length ≤ i) :
    lookupEdge ev i = none := by
  simp [lookupEdge, List.getElem?_eq_none h]

/-- A successful `setEdge` records the requested edge at the requested slot. -/
theorem setEdge_sets {ev : EdgeVec} {j v : Nat} {ev' : EdgeVec}
    (h : setEdge ev j v = some ev') : lookupEdge ev' j = some v := by
  by_cases hle : ev.length ≤ j
  · rw [setEdge, if_pos hle] at h
    injection h with h
    subst h
    set pref : EdgeVec :=
      (if ev.length ≠ j then ev ++ List.replicate (j - ev.length) none else ev) with hpref
    have hlen : pref.length = j := by
      rw [hpref]
      by_cases hne : ev.length ≠ j
      · rw [if_pos hne, List.length_append, List.length_replicate]
        omega
      · rw [if_neg hne]
        omega
    have hget := List.getElem?_concat_length pref (some v)
    rw [hlen] at hget
    rw [lookupEdge, hget]
    rfl
  · have hlt : j < ev.length := Nat.lt_of_not_le hle
    rcases hev : ev[j]? with - | o
    · exact absurd (List.getElem?_eq_none_iff.mp hev) (by omega)
    · cases o with
      | some x =>
        rw [setEdge, if_neg hle, hev] at h
        exact absurd h (by simp)
      | none =>
        rw [setEdge, if_neg hle, hev] at h
        injection h with h
        subst h
        rw [lookupEdge, List.getElem?_set_eq_of_lt _ hlt]
        rfl

/-- A successful `setEdge` leaves every other slot's recorded edge unchanged. -/
theorem setEdge_frame {ev : EdgeVec} {j v : Nat} {ev' : EdgeVec}
    (h : setEdge ev j v = some ev') {i : Nat} (hij : i ≠ j) :
    lookupEdge ev' i = lookupEdge ev i := by
  by_cases hle : ev.length ≤ j
  · rw [setEdge, if_pos hle] at h
    injection h with h
    subst h
    set pref : EdgeVec :=
      (if ev.length ≠ j then ev ++ List.replicate (j - ev.length) none else ev) with hpref
    have hlen : pref.length = j := by
      rw [hpref]
      by_cases hne : ev.length ≠ j
      · rw [if_pos hne, List.length_append, List.length_replicate]
        omega
      · rw [if_neg hne]
        omega
    by_cases hi : i < ev.length
    · have hipref : i < pref.length := by omega
      rw [lookupEdge, List.getElem?_append_left hipref]
      have hpi : pref[i]? = ev[i]? := by
        rw [hpref]
        by_cases hne : ev.length ≠ j
        · rw [if_pos hne, List.getElem?_append_left hi]
        · rw [if_neg hne]
      rw [hpi]
      rfl
    · have hiev : ev.length ≤ i := Nat.le_of_not_lt hi
      rw [lookupEdge_of_le hiev]
      by_cases hi' : i < j
      · have hipref : i < pref.length := by omega
        rw [lookupEdge, List.getElem?_append_left hipref]
        have hpi : pref[i]? = some none := by
          rw [hpref, if_pos (by omega), List.getElem?_append_right (by omega)]
          rw [List.getElem?_replicate, if_pos (by omega)]
        rw [hpi]
        rfl
      · have hlong : (pref ++ [some v]).length ≤ i := by
          rw [List.length_append, hlen]
          simp only [List.length_cons, List.length_nil]
          omega
        rw [lookupEdge_of_le hlong]
  · have hlt : j < ev.length := Nat.lt_of_not_le hle
    rcases hev : ev[j]? with - | o
    · exact absurd (List.getElem?_eq_none_iff.mp hev) (by omega)
    · cases o with
      | some x =>
        rw [setEdge, if_neg hle, hev] at h
        exact absurd h (by simp)
      | none =>
        rw [setEdge, if_neg hle, hev] at h
        injection h with h
        subst h
        rw [lookupEdge, lookupEdge, List.getElem?_set_ne (fun he => hij he.symm)]

/-- Writing onto a slot that already records an edge makes the assert fire. -/
theorem setEdge_occupied {ev : EdgeVec} {j x : Nat} (h : lookupEdge ev j = some x)
    (v : Nat) : setEdge ev j v = none := by
  rcases hev : ev[j]? with - | o
  · rw [lookupEdge, hev] at h
    exact absurd h (by simp)
  · cases o with
    | none =>
      rw [lookupEdge, hev] at h
      exact absurd h (by simp)
    | some y =>
      have hlt : j < ev.length := (List.getElem?_eq_some.mp hev).1
      rw [setEdge, if_neg (by omega), hev]

/-- `get_neighbor` on an existing layer pair reads exactly the recorded edge. -/
theorem get_neighbor_eq {g : CGraph} {n : GraphNode} {t : Nat} {row : List EdgeVec}
    {ev : EdgeVec} (hrow : g[n.layer_idx]? = some row) (hev : row[t]? = some ev) :
    get_neighbor g n t = some (lookupEdge ev n.item_idx) := by
  simp only [get_neighbor, hrow, hev]
  by_cases hle : ev.length ≤ n.item_idx
  · rw [if_pos hle, lookupEdge_of_le hle]
  · rw [if_neg hle]
    rfl

/-- Inversion of a successful `connect_oneway`. -/
theorem connect_oneway_inv {g g' : CGraph} {s e : GraphNode}
    (h : connect_oneway g s e = some g') :
    ∃ row ev ev', g[s.layer_idx]? = some row ∧ row[e.layer_idx]? = some ev ∧
      setEdge ev s.item_idx e.item_idx = some ev' ∧
      g' = g.set s.layer_idx (row.set e.layer_idx ev') := by
  rcases hg : g[s.layer_idx]? with - | row
  · simp [connect_oneway, hg] at h
  · rcases hrow : row[e.layer_idx]? with - | ev
    · simp [connect_oneway, hg, hrow] at h
    · rcases hset : setEdge ev s.item_idx e.item_idx with - | ev'
      · simp [connect_oneway, hg, hrow, hset] at h
      · simp only [connect_oneway, hg, hrow, hset] at h
        injection h with h
        exact ⟨row, ev, ev', rfl, hrow, hset, h.symm⟩

/-- After a successful `connect_oneway`, the written edge is observable. -/
theorem connect_oneway_written {g g' : CGraph} {s e : GraphNode}
    (h : connect_oneway g s e = some g') :
    get_neighbor g' s e.layer_idx = some (some e.item_idx) := by
  obtain ⟨row, ev, ev', hg, hrow, hset, hg'⟩ := connect_oneway_inv h
  have hsl : s.layer_idx < g.length := (List.getElem?_eq_some.mp hg).1
  have hel : e.layer_idx < row.length := (List.getElem?_eq_some.mp hrow).1
  have h1 : g'[s.layer_idx]? = some (row.set e.layer_idx ev') := by
    rw [hg', List.getElem?_set_eq_of_lt _ hsl]
  have h2 : (row.set e.layer_idx ev')[e.layer_idx]? = some ev' :=
    List.getElem?_set_eq_of_lt _ hel
  rw [get_neighbor_eq h1 h2, setEdge_sets hset]

/-- A successful `connect_oneway` does not change any other edge lookup. -/
theorem connect_oneway_frame {g g' : CGraph} {s e : GraphNode}
    (h : connect_oneway g s e = some g') (n : GraphNode) (t : Nat)
    (hcond : n.layer_idx ≠ s.layer_idx ∨ t ≠ e.layer_idx ∨ n.item_idx ≠ s.item_idx) :
    get_neighbor g' n t = get_neighbor g n t := by
  obtain ⟨row, ev, ev', hg, hrow, hset, hg'⟩ := connect_oneway_inv h
  have hsl : s.layer_idx < g.length := (List.getElem?_eq_some.mp hg).1
  have hel : e.layer_idx < row.length := (List.getElem?_eq_some.mp hrow).1
  by_cases hl : n.layer_idx = s.layer_idx
  · by_cases ht : t = e.layer_idx
    · have hitem : n.item_idx ≠ s.item_idx := by tauto
      have h1 : g'[n.layer_idx]? = some (row.set e.layer_idx ev') := by
        rw [hg', hl, List.getElem?_set_eq_of_lt _ hsl]
      have h2 : (row.set e.layer_idx ev')[t]? = some ev' := by
        rw [ht]
        exact List.getElem?_set_eq_of_lt _ hel
      rw [get_neighbor_eq h1 h2, get_neighbor_eq (hl ▸ hg) (ht ▸ hrow)]
      rw [setEdge_frame hset hitem]
    · have h1 : g'[n.layer_idx]? = some (row.set e.layer_idx ev') := by
        rw [hg', hl, List.getElem?_set_eq_of_lt _ hsl]
      have h2 : (row.set e.layer_idx ev')[t]? = row[t]? :=
        List.getElem?_set_ne (fun he => ht he.symm)
      have h3 : g[n.layer_idx]? = some row := by
        rw [hl]
        exact hg
      simp only [get_neighbor, h1, h2, h3]
  · have h1 : g'[n.layer_idx]? = g[n.layer_idx]? := by
      rw [hg', List.getElem?_set_ne fun he => hl he.symm]
    simp only [get_neighbor, h1]

/-- Inversion of a positive `get_neighbor` answer. -/
theorem get_neighbor_some_inv {g : CGraph} {n : GraphNode} {t : Nat} {j : Nat}
    (h : get_neighbor g n t = some (some j)) :
    ∃ row ev, g[n.layer_idx]? = some row ∧ row[t]? = some ev ∧
      lookupEdge ev n.item_idx = some j := by
  rcases hg : g[n.layer_idx]? with - | row
  · simp [get_neighbor, hg] at h
  · rcases hrow : row[t]? with - | ev
    · simp [get_neighbor, hg, hrow] at h
    · rw [get_neighbor_eq hg hrow] at h
      injection h with h
      exact ⟨row, ev, rfl, hrow, h⟩

/-- C1: after a successful `connect(a, b)`, `get_neighbor(a, L_b)` returns a
node whose `item_idx` equals `b.item_idx` and `get_neighbor(b, L_a)` returns a
node whose `item_idx` equals `a.item_idx` — `connect` writes both directions. -/
theorem connect_writes_both_directions (g g2 : CGraph) (a b : GraphNode)
    (h : connect g a b = some g2) :
    get_neighbor g2 a b.layer_idx = some (some b.item_idx) ∧
    get_neighbor g2 b a.layer_idx = some (some a.item_idx) := by
  obtain ⟨g1, h1, h2⟩ := Option.bind_eq_some.mp h
  refine ⟨?_, connect_oneway_written h2⟩
  by_cases hsame : a.layer_idx = b.layer_idx ∧ a.item_idx = b.item_idx
  · exfalso
    obtain ⟨row, ev, ev1, hg, hrow, hset, hg1⟩ := connect_oneway_inv h1
    have hsl : a.layer_idx < g.length := (List.getElem?_eq_some.mp hg).1
    have hel : b.layer_idx < row.length := (List.getElem?_eq_some.mp hrow).1
    have hb1 : g1[b.layer_idx]? = some (row.set b.layer_idx ev1) := by
      rw [hg1, ← hsame.1, List.getElem?_set_eq_of_lt _ hsl]
    have hb2 : (row.set b.layer_idx ev1)[a.layer_idx]? = some ev1 := by
      rw [hsame.1]
      exact List.getElem?_set_eq_of_lt _ hel
    have hocc : lookupEdge ev1 b.item_idx = some b.item_idx := by
      have h0 := setEdge_sets hset
      rw [hsame.2] at h0
      exact h0
    simp [connect_oneway, hb1, hb2, setEdge_occupied hocc] at h2
  · have hcond : a.layer_idx ≠ b.layer_idx ∨ b.layer_idx ≠ a.layer_idx ∨
        a.item_idx ≠ b.item_idx := by tauto
    rw [connect_oneway_frame h2 a b.layer_idx hcond]
    exact connect_oneway_written h1

/-- C1 witness: a concrete two-layer graph with one node in each layer. -/
theorem connect_writes_both_directions_witness :
    get_neighbor [[[], [some 0]], [[some 0], []]] ⟨0, 0⟩ 1 = some (some 0) ∧
    get_neighbor [[[], [some 0]], [[some 0], []]] ⟨1, 0⟩ 0 = some (some 0) :=
  connect_writes_both_directions [[[], []], [[], []]] _ ⟨0, 0⟩ ⟨1, 0⟩ rfl

/-- C2 counterexample: re-running `connect_oneway` onto the identical target
panics (the embedded composite returns `none`, modelling the overwrite
assert), refuting the claimed idempotence. -/
theorem connect_oneway_repeat_counterexample :
    ((connect_oneway [[[], []], [[], []]] ⟨0, 0⟩ ⟨1, 0⟩).bind
      (fun g => connect_oneway g ⟨0, 0⟩ ⟨1, 0⟩)) = none := by
  decide

/-- C2 amended: a second `connect_oneway` over an already-written edge —
identical target included — always panics: the assert checks
`prev_val.is_none()` and the slot is occupied. -/
theorem connect_oneway_repeat_panics (g g' : CGraph) (s e : GraphNode)
    (h : connect_oneway g s e = some g') :
    connect_oneway g' s e = none := by
  obtain ⟨row, ev, ev', hg, hrow, hset, hg'⟩ := connect_oneway_inv h
  have hsl : s.layer_idx < g.length := (List.getElem?_eq_some.mp hg).1
  have hel : e.layer_idx < row.length := (List.getElem?_eq_some.mp hrow).1
  have h1 : g'[s.layer_idx]? = some (row.set e.layer_idx ev') := by
    rw [hg', List.getElem?_set_eq_of_lt _ hsl]
  have h2 : (row.set e.layer_idx ev')[e.layer_idx]? = some ev' :=
    List.getElem?_set_eq_of_lt _ hel
  simp only [connect_oneway, h1, h2, setEdge_occupied (setEdge_sets hset)]

/-- C2 amended witness: the concrete graph after one `connect_oneway`. -/
theorem connect_oneway_repeat_witness :
    connect_oneway [[[], [some 0]], [[], []]] ⟨0, 0⟩ ⟨1, 0⟩ = none :=
  connect_oneway_repeat_panics [[[], []], [[], []]] _ ⟨0, 0⟩ ⟨1, 0⟩ rfl

/-- C3: when an edge from `a` into `c`'s layer already exists (to a node `b`
distinct from `c`), both `connect_oneway(a, c)` and `connect(a, c)` panic
(the overwrite assert detects the misuse). -/
theorem connect_overwrite_panics (g : CGraph) (a c : GraphNode) (j : Nat)
    (hedge : get_neighbor g a c.layer_idx = some (some j))
    (hne : j ≠ c.item_idx) :
    connect_oneway g a c = none ∧ connect g a c = none := by
  obtain ⟨row, ev, hg, hrow, hocc⟩ := get_neighbor_some_inv hedge
  have h1 : connect_oneway g a c = none := by
    simp only [connect_oneway, hg, hrow, setEdge_occupied hocc]
  exact ⟨h1, by rw [connect, h1]; rfl⟩

/-- C3 witness: an edge `⟨0,0⟩ → ⟨1,0⟩` exists; connecting `⟨0,0⟩ → ⟨1,1⟩`
panics both ways. -/
theorem connect_overwrite_panics_witness :
    connect_oneway [[[], [some 0]], [[], []]] ⟨0, 0⟩ ⟨1, 1⟩ = none ∧
    connect [[[], [some 0]], [[], []]] ⟨0, 0⟩ ⟨1, 1⟩ = none :=
  connect_overwrite_panics [[[], [some 0]], [[], []]] ⟨0, 0⟩ ⟨1, 1⟩ 0 rfl (by decide)

/-- C8: `create_layer` on a graph with `N` layers assigns the new layer id
`N`, makes the outer dimension `N + 1`, seeds the new layer with `N + 1`
empty target slots, and appends exactly one empty target slot to every
existing layer's edge row. -/
theorem create_layer_invariants (g : CGraph) :
    (create_layer g).2 = g.length ∧
    (create_layer g).1.length = g.length + 1 ∧
    (create_layer g).1[g.length]? = some (List.replicate (g.length + 1) []) ∧
    ∀ i, i < g.length →
      (create_layer g).1[i]? = g[i]?.map (fun row => row ++ [[]]) := by
  refine ⟨rfl, ?_, ?_, ?_⟩
  · simp [create_layer]
  · have hlen : (g.map (fun row => row ++ [[]])).length = g.length := List.length_map _ _
    have hc := List.getElem?_concat_length (g.map (fun row => row ++ [[]]))
      (List.replicate (g.length + 1) ([] : EdgeVec))
    rw [hlen] at hc
    exact hc
  · intro i hi
    have hi' : i < (g.map (fun row => row ++ [[]])).length := by
      rw [List.length_map]
      exact hi
    rw [create_layer]
    rw [List.getElem?_append_left hi', List.getElem?_map]

/-- C8 witness: growing a one-layer graph. -/
theorem create_layer_invariants_witness :
    (0 : Nat) < 1 ∧ (create_layer [[[]]]).1[0]? = some [[], []] := by
  have h := (create_layer_invariants [[[]]]).2.2.2 0 (by decide)
  exact ⟨by decide, by simpa using h⟩

/-- C10: `get_neighbor` is total on valid layer pairs: it never panics, and
whenever no edge is recorded for the triple — including when the lazily
allocated edge vector is shorter than `item_idx + 1` — it returns `None`. -/
theorem get_neighbor_total (g : CGraph) (n : GraphNode) (t : Nat)
    (row : List EdgeVec) (ev : EdgeVec)
    (hrow : g[n.layer_idx]? = some row) (hev : row[t]? = some ev) :
    (get_neighbor g n t).isSome = true ∧
    (lookupEdge ev n.item_idx = none → get_neighbor g n t = some none) := by
  rw [get_neighbor_eq hrow hev]
  exact ⟨rfl, fun h => by rw [h]⟩

/-- C10 witness: a node with `item_idx` past the lazily-allocated edge
vector's length resolves to `None` without panicking. -/
theorem get_neighbor_total_witness :
    get_neighbor [[[], []], [[], []]] ⟨0, 5⟩ 1 = some none :=
  (get_neighbor_total [[[], []], [[], []]] ⟨0, 5⟩ 1 [[], []] [] rfl rfl).2 rfl

/-! ## Theorems: vector algebra helpers -/

/-- Component of a vector sum. -/
theorem Vec2.add_x (a b : Vec2) : (a + b).x = a.x + b.x := rfl

/-- Component of a vector sum. -/
theorem Vec2.add_y (a b : Vec2) : (a + b).y = a.y + b.y := rfl

/-- Component of a vector difference. -/
theorem Vec2.sub_x (a b : Vec2) : (a - b).x = a.x - b.x := rfl

/-- Component of a vector difference. -/
theorem Vec2.sub_y (a b : Vec2) : (a - b).y = a.y - b.y := rfl

/-- Component of a negated vector. -/
theorem Vec2.neg_x (a : Vec2) : (-a).x = -a.x := rfl

/-- Component of a negated vector. -/
theorem Vec2.neg_y (a : Vec2) : (-a).y = -a.y := rfl

/-- Double negation of a vector. -/
theorem Vec2.negneg (a : Vec2) : -(-a) = a := by
  cases a with
  | mk x y =>
    show (⟨-(-x), -(-y)⟩ : Vec2) = ⟨x, y⟩
    rw [neg_neg, neg_neg]

/-- Dot product is symmetric. -/
theorem Vec2.dot_comm (a b : Vec2) : a.dot b = b.dot a := by
  simp only [Vec2.dot]
  ring

/-- Dot with a negated right argument. -/
theorem Vec2.dot_neg_right (a b : Vec2) : a.dot (-b) = -(a.dot b) := by
  simp only [Vec2.dot, Vec2.neg_x, Vec2.neg_y]
  ring

/-- Dot with a negated left argument. -/
theorem Vec2.dot_neg_left (a b : Vec2) : (-a).dot b = -(a.dot b) := by
  simp only [Vec2.dot, Vec2.neg_x, Vec2.neg_y]
  ring

/-- Squared magnitude of a negated vector. -/
theorem Vec2.magSq_neg (a : Vec2) : (-a).magSq = a.magSq := by
  simp only [Vec2.magSq, Vec2.dot, Vec2.neg_x, Vec2.neg_y]
  ring

/-- The projection, onto the inward normal, of the vector from a ray start
to the outward-offset edge start. -/
theorem dot_offset_sub (a n s : Vec2) (r : ℚ) :
    ((a + Vec2.smul r n) - s).dot (-n) = n.dot s - n.dot a - r * n.magSq := by
  simp only [Vec2.dot, Vec2.magSq, Vec2.smul, Vec2.add_x, Vec2.add_y, Vec2.sub_x,
    Vec2.sub_y, Vec2.neg_x, Vec2.neg_y]
  ring

/-- A fold whose step fixes the accumulator returns the accumulator. -/
theorem foldl_fixed {α β : Type _} (f : α → β → α) (a : α)
    (l : List β) (h : ∀ x ∈ l, f a x = a) : l.foldl f a = a := by
  induction l with
  | nil => rfl
  | cons x xs ih =>
    rw [List.foldl_cons, h x (List.mem_cons_self x xs)]
    exact ih (fun y hy => h y (List.mem_cons_of_mem x hy))

/-! ## Theorems: ray queries (C4) -/

/-- A ray whose start is strictly inside a circle misses it (the source's
`t = -b - sqrt(discr)` is negative because `c < 0`). -/
theorem ray_circle_hits_inside {ray : Ray} {circ : Vec2} {r : ℚ}
    (hc : (ray.start - circ).magSq - r * r < 0) :
    ray_circle_hits ray circ r = false := by
  simp only [ray_circle_hits]
  split
  · rfl
  · split
    · rfl
    · simp only [decide_eq_false_iff_not]
      rintro ⟨-, hc0⟩
      linarith

/-- The edge-loop body skips an edge that faces against the ray direction
when the ray start lies strictly inside the edge's inflated face plane:
the outer edge lies behind the start (`ray_t_to_edge < 0`), or the ray is
parallel to the edge. -/
theorem rayEdgeBody_skip (r extra : ℚ) (lray : Ray) (e : EdgeWithNormal)
    (hn : e.normal.magSq = 1)
    (hd : e.normal.dot lray.dir ≤ 0)
    (h1 : e.normal.dot lray.start < e.normal.dot e.edge.start + r) :
    rayEdgeBody r extra lray ⟨none, none⟩ e = ⟨none, none⟩ := by
  simp only [rayEdgeBody]
  by_cases hs : lray.dir.dot (-e.normal) = 0
  · rw [if_pos hs]
  · rw [if_neg hs]
    have hspeed : 0 < lray.dir.dot (-e.normal) := by
      rw [Vec2.dot_neg_right, Vec2.dot_comm]
      rw [Vec2.dot_neg_right, Vec2.dot_comm] at hs
      rcases lt_or_eq_of_le hd with h | h
      · linarith
      · exact absurd (by rw [h]; ring) hs
    have hnum : ((e.edge.offset (Vec2.smul r e.normal)).start - lray.start).dot (-e.normal) < 0 := by
      have expand : ((e.edge.offset (Vec2.smul r e.normal)).start - lray.start).dot (-e.normal)
          = e.normal.dot lray.start - e.normal.dot e.edge.start - r * e.normal.magSq := by
        simp only [PolyEdge.offset]
        exact dot_offset_sub e.edge.start e.normal lray.start r
      rw [expand, hn]
      linarith
    have ht : ((e.edge.offset (Vec2.smul r e.normal)).start - lray.start).dot (-e.normal)
        / (lray.dir.dot (-e.normal)) < 0 := div_neg_of_neg_of_pos hnum hspeed
    rw [if_pos ht]

/-- An edge-loop iteration leaves the initial state unchanged when the ray
start is strictly inside the edge's inflated face planes (both sides when
the polygon is rotationally symmetric). -/
theorem rayEdgeStep_skip (pm : PolyModel) (r extra : ℚ) (lray : Ray)
    (e : EdgeWithNormal) (hn : e.normal.magSq = 1)
    (h1 : e.normal.dot lray.start < e.normal.dot e.edge.start + r)
    (h2 : pm.symmetric = true →
      (-e.normal).dot lray.start < (-e.normal).dot (-e.edge.start) + r) :
    rayEdgeStep pm r extra lray ⟨none, none⟩ e = ⟨none, none⟩ := by
  simp only [rayEdgeStep]
  by_cases hd : e.normal.dot lray.dir ≤ 0
  · rw [if_pos hd]
    exact rayEdgeBody_skip r extra lray e hn hd h1
  · rw [if_neg hd]
    by_cases hsym : pm.symmetric = true
    · rw [if_pos hsym]
      refine rayEdgeBody_skip r extra lray e.mirrored ?_ ?_ ?_
      · show (-e.normal).magSq = 1
        rw [Vec2.magSq_neg]
        exact hn
      · show (-e.normal).dot lray.dir ≤ 0
        rw [Vec2.dot_neg_left]
        push_neg at hd
        linarith
      · exact h2 hsym
    · rw [if_neg hsym]

/-- The generic-polygon arm misses when the ray starts strictly inside all
inflated face planes: either the quick separating-axis test already rules
the line out, or every edge of the loop is skipped and the sentinel
`f64::MAX` (`none`) survives to the end. -/
theorem ray_collider_generic_inside (pm : PolyModel) (r : ℚ) (lray : Ray)
    (hwf : pm.wf) (hin : insideFacePlanes pm r lray.start) :
    ray_collider_generic pm r lray = false := by
  have hfold : ∀ extra : ℚ,
      pm.edges.foldl (rayEdgeStep pm r extra lray) ⟨none, none⟩ = ⟨none, none⟩ := by
    intro extra
    refine foldl_fixed _ _ _ (fun e he => ?_)
    exact rayEdgeStep_skip pm r extra lray e (hwf e he) (hin e he).1
      (fun hs => (hin e he).2 hs)
  simp only [ray_collider_generic]
  split
  · split
    · rfl
    · rw [hfold]
  · split
    · rfl
    · rw [hfold]

/-- The concrete `Rect` accessor table has unit face normals. -/
theorem rectModel_wf (hw hh : ℚ) : (rectModel hw hh).wf := by
  intro e he
  simp only [rectModel, List.mem_cons, List.mem_singleton] at he
  rcases he with rfl | rfl | he
  · simp only [Vec2.magSq, Vec2.dot]
    norm_num
  · simp only [Vec2.magSq, Vec2.dot]
    norm_num
  · cases he

/-- C4: for every collider variant and pose, `ray_collider` applied to a
ray whose start lies strictly inside the inflated shape returns `None`
(embedded as `ray_collider_hits … = false`). -/
theorem ray_from_inside_misses (ray : Ray) (pose : Pose) (coll : Collider)
    (hwf : coll.wf) (hin : startsInside ray pose coll) :
    ray_collider_hits ray pose coll = false := by
  obtain ⟨shape⟩ := coll
  obtain ⟨poly, r⟩ := shape
  cases poly with
  | point =>
    simp only [startsInside] at hin
    simp only [ray_collider_hits]
    exact ray_circle_hits_inside (by linarith)
  | lineSegment hl =>
    simp only [Collider.wf] at hwf
    obtain ⟨hr, hhl⟩ := hwf
    simp only [startsInside] at hin
    simp only [ray_collider_hits]
    set lp := Pose.mulRay pose.inversed ray with hlp
    have hy2 : lp.start.y * lp.start.y < r * r := by
      nlinarith [mul_self_nonneg (max (|lp.start.x| - hl) 0)]
    have hrpos : 0 < r := by
      rcases eq_or_lt_of_le hr with h | h
      · exfalso
        nlinarith [mul_self_nonneg lp.start.y]
      · exact h
    have hy : |lp.start.y| < r := by
      rw [abs_lt]
      constructor <;> nlinarith
    by_cases hpar : |lp.dir.y| < 1 / 10000
    · rw [if_pos hpar]
      by_cases hmiss : |lp.start.y| ≥ r ∨ |lp.start.x| < hl
      · rw [if_pos hmiss]
      · rw [if_neg hmiss]
        push_neg at hmiss
        obtain ⟨-, hx⟩ := hmiss
        apply ray_circle_hits_inside
        have hmagSq : (lp.start - ⟨copysign hl lp.start.x, 0⟩).magSq
            = (lp.start.x - copysign hl lp.start.x) * (lp.start.x - copysign hl lp.start.x)
              + lp.start.y * lp.start.y := by
          simp only [Vec2.magSq, Vec2.dot, Vec2.sub_x, Vec2.sub_y]
          ring
        have hxd : (lp.start.x - copysign hl lp.start.x) * (lp.start.x - copysign hl lp.start.x)
            = (|lp.start.x| - hl) * (|lp.start.x| - hl) := by
          simp only [copysign]
          by_cases hneg : lp.start.x < 0
          · rw [if_pos hneg, abs_of_nonneg hhl, abs_of_neg hneg]
            ring
          · rw [if_neg hneg, abs_of_nonneg hhl,
              abs_of_nonneg (le_of_not_lt hneg)]
        have hmax : max (|lp.start.x| - hl) 0 = |lp.start.x| - hl :=
          max_eq_left (by linarith)
        rw [hmax] at hin
        rw [hmagSq, hxd]
        linarith
    · rw [if_neg hpar]
      have hdy : lp.dir.y ≠ 0 := by
        intro h0
        apply hpar
        rw [h0]
        norm_num
      have ht : (copysign r (-lp.dir.y) - lp.start.y) / lp.dir.y < 0 := by
        rcases lt_or_gt_of_ne hdy with hneg | hpos
        · have hcs : copysign r (-lp.dir.y) = r := by
            simp only [copysign]
            rw [if_neg (by linarith), abs_of_nonneg hr]
          rw [hcs]
          apply div_neg_of_pos_of_neg _ hneg
          have := le_abs_self lp.start.y
          linarith
        · have hcs : copysign r (-lp.dir.y) = -r := by
            simp only [copysign]
            rw [if_pos (by linarith), abs_of_nonneg hr]
          rw [hcs]
          apply div_neg_of_neg_of_pos _ hpos
          have := neg_abs_le lp.start.y
          linarith
      rw [if_pos ht]
  | rect hw hh =>
    simp only [startsInside] at hin
    simp only [ray_collider_hits]
    exact ray_collider_generic_inside _ _ _ (rectModel_wf hw hh) hin
  | poly pm =>
    simp only [Collider.wf] at hwf
    simp only [startsInside] at hin
    simp only [ray_collider_hits]
    exact ray_collider_generic_inside _ _ _ hwf.2 hin

/-- C4 witness: a ray starting at the centre of a unit circle misses it. -/
theorem ray_from_inside_misses_witness :
    ray_collider_hits ⟨⟨0, 0⟩, ⟨1, 0⟩⟩ Pose.idPose ⟨⟨.point, 1⟩⟩ = false := by
  refine ray_from_inside_misses ⟨⟨0, 0⟩, ⟨1, 0⟩⟩ Pose.idPose ⟨⟨.point, 1⟩⟩ ?_ ?_
  · constructor
    · norm_num
    · trivial
  · show ((⟨0, 0⟩ : Vec2) - Pose.idPose.translation).magSq < 1 * 1
    with_unfolding_all decide

/-! ## Theorems: narrow phase (C5) -/

/-- C5 counterexample: two circles of radius 1/100 whose centres are at
distance exactly `r1 + r2 = 1/50`. Then `dist_sq = 1/2500 < 0.001`, the
coincident-centre fallback fires, and `intersection_check` reports a
One-contact result instead of the claimed `Zero`. -/
theorem circles_touching_counterexample :
    (intersection_check ![⟨⟨0, 0⟩, ⟨1, 0⟩⟩, ⟨⟨1/50, 0⟩, ⟨1, 0⟩⟩]
      ![⟨.point, 1/100⟩, ⟨.point, 1/100⟩]).map ContactResult.is_zero = some false := by
  with_unfolding_all decide

/-- C5 amended: two circle colliders whose centres are at distance exactly
`r1 + r2` produce `ContactResult::Zero`, provided `(r1+r2)² ≥ 0.001` so the
coincident-centre fallback (`dist_sq < 0.001`) does not fire; the collision
test `dist_sq < r_sum²` is strict, so exact touching reports `Zero`. -/
theorem circles_touching_zero (pose1 pose2 : Pose) (r1 r2 : ℚ)
    (hdist : (pose2.translation - pose1.translation).magSq = (r1 + r2) * (r1 + r2))
    (hbig : (1 : ℚ) / 1000 ≤ (r1 + r2) * (r1 + r2)) :
    intersection_check ![pose1, pose2] ![⟨.point, r1⟩, ⟨.point, r2⟩]
      = some ContactResult.zero := by
  simp only [intersection_check, Matrix.cons_val_zero, Matrix.cons_val_one, Matrix.head_cons]
  simp only [circle_circle]
  rw [hdist, if_neg (not_lt.mpr hbig), if_neg (lt_irrefl _)]

/-- C5 amended witness: unit circles with centres at distance 2. -/
theorem circles_touching_zero_witness :
    intersection_check ![⟨⟨0, 0⟩, ⟨1, 0⟩⟩, ⟨⟨2, 0⟩, ⟨1, 0⟩⟩] ![⟨.point, 1⟩, ⟨.point, 1⟩]
      = some ContactResult.zero :=
  circles_touching_zero ⟨⟨0, 0⟩, ⟨1, 0⟩⟩ ⟨⟨2, 0⟩, ⟨1, 0⟩⟩ 1 1
    (by with_unfolding_all decide) (by norm_num)

/-! ## Theorems: point query (C6) -/

/-- C6 (code bug): at `p = (7/5, 0)` against `Rect{hw=1, hh=1}` with
`circle_r = 1/2` and the identity pose, `point_collider_bool` returns
`false` although the point lies in the inflated shape (its distance to the
rect is `2/5 < 1/2`, as the spec-side membership test confirms): the `Rect`
arm compares `x_dist² + y_dist² < r²` with the negative `y_dist = -1` left
unclamped, unlike the `LineSegment` arm directly above it which applies
`.max(0.0)`. -/
theorem point_collider_rect_misses_inflated_point :
    point_collider_bool ⟨7/5, 0⟩ Pose.idPose ⟨⟨.rect 1 1, 1/2⟩⟩ = false ∧
    point_in_inflated_rect_spec 1 1 (1/2) ⟨7/5, 0⟩ = true := by
  constructor <;> with_unfolding_all decide

/-! ## Theorems: edge clipping with a zero denominator (C7) -/

/-- Division of a finite float by (positive) zero is never finite. -/
theorem fdiv_zero_not_fin (a q : ℚ) : fdiv a 0 ≠ FVal.fin q := by
  unfold fdiv
  split_ifs with h1 h2 h3
  · exact absurd rfl h1
  · simp
  · simp
  · simp

/-- Division by a nonzero denominator is exact. -/
theorem fdiv_of_ne (a b : ℚ) (h : b ≠ 0) : fdiv a b = .fin (a / b) := by
  simp [fdiv, h]

/-- The `Intersects` range guard evaluates to false whenever the first
Cramer quotient is NaN or infinite: NaN fails every comparison, `+∞` fails
the upper bound, `-∞` fails the lower bound. -/
theorem clip_guard_false (L1 L2 : ℚ) (t0 t1 : FVal)
    (h0 : ∀ q, t0 ≠ FVal.fin q) :
    (FVal.fle (.fin 0) t0 && FVal.fle t0 (.fin L1)
      && FVal.fle (.fin 0) t1 && FVal.fle t1 (.fin L2)) = false := by
  cases t0 with
  | fin q => exact absurd rfl (h0 q)
  | pinf => rfl
  | ninf => rfl
  | nan => rfl

/-- Exactly parallel unit directions have dot product ±1 ≠ 0 (Lagrange's
identity with a vanishing cross term). -/
theorem unit_parallel_dot_ne_zero {a b : Vec2} (ha : a.magSq = 1) (hb : b.magSq = 1)
    (hpar : a.x * (-b.y) - (-b.x) * a.y = 0) : a.dot b ≠ 0 := by
  intro h0
  simp only [Vec2.magSq, Vec2.dot] at ha hb h0
  have h2 : a.x * b.y - a.y * b.x = 0 := by linarith
  have key : (a.x * b.x + a.y * b.y) ^ 2 + (a.x * b.y - a.y * b.x) ^ 2
      = (a.x * a.x + a.y * a.y) * (b.x * b.x + b.y * b.y) := by ring
  rw [ha, hb, h0, h2] at key
  norm_num at key

/-- Rust's NaN-ignoring `max` of two finite floats is finite. -/
theorem fmax_fin_isFin (a b : ℚ) : (FVal.fmax (.fin a) (.fin b)).isFin = true := by
  simp only [FVal.fmax]
  split <;> rfl

/-- Rust's NaN-ignoring `min` of two finite floats is finite. -/
theorem fmin_fin_isFin (a b : ℚ) : (FVal.fmin (.fin a) (.fin b)).isFin = true := by
  simp only [FVal.fmin]
  split <;> rfl

/-- C7: for edges whose directions are exactly parallel (the Cramer
denominator is zero), `clip_edge` returns a well-defined result with no NaN
in it: the NaN/∞ quotients make the `Intersects` guard false, and the
`Passes` values, computed with the nonzero `dirs_dot = ±1`, are finite. -/
theorem clip_edge_parallel_no_nan (target edge : PolyEdge)
    (hu1 : target.dir.magSq = 1) (hu2 : edge.dir.magSq = 1)
    (hpar : edge.dir.x * (-target.dir.y) - (-target.dir.x) * edge.dir.y = 0) :
    clipResultOk (clip_edge_fp target edge) = true := by
  simp only [clip_edge_fp]
  rw [hpar]
  rw [clip_guard_false _ _ _ _ (fun q => fdiv_zero_not_fin _ q)]
  rw [if_neg Bool.false_ne_true]
  have hdot : edge.dir.dot target.dir ≠ 0 := unit_parallel_dot_ne_zero hu2 hu1 hpar
  rw [fdiv_of_ne _ _ hdot, fdiv_of_ne _ _ hdot]
  split
  · rfl
  · split
    · simp only [clipResultOk, fmax_fin_isFin, fmin_fin_isFin]
      rfl
    · simp only [clipResultOk, fmax_fin_isFin, fmin_fin_isFin]
      rfl

/-- C7 witness: two parallel horizontal unit edges. -/
theorem clip_edge_parallel_no_nan_witness :
    clipResultOk (clip_edge_fp ⟨⟨0, 1⟩, ⟨1, 0⟩, 2⟩ ⟨⟨0, 0⟩, ⟨1, 0⟩, 2⟩) = true :=
  clip_edge_parallel_no_nan ⟨⟨0, 1⟩, ⟨1, 0⟩, 2⟩ ⟨⟨0, 0⟩, ⟨1, 0⟩, 2⟩
    (by with_unfolding_all decide) (by with_unfolding_all decide)
    (by with_unfolding_all decide)

/-! ## Theorems: player controller (C9) -/

/-- C9: the horizontal velocity change in `PlayerController::tick` equals
`min(need, max_accel)` where `need = target_hvel − vx` — a plain `min`
rather than the symmetric clamp: at `vx = 10, target = 0, max = 8` the code
and the clamped variant disagree (change −10 versus −8). -/
theorem player_accel_is_plain_min :
    (∀ vx target_hvel max_acceleration : ℚ,
      player_tick_hvel vx target_hvel max_acceleration - vx =
        min (target_hvel - vx) max_acceleration) ∧
    player_tick_hvel 10 0 8 ≠ player_tick_hvel_clamped 10 0 8 := by
  constructor
  · intro vx t m
    simp only [player_tick_hvel]
    ring
  · with_unfolding_all decide
